import Mathlib

/-!
# Verification of the integration_limbo reconciliation pipeline

Shallow embedding of the NetBox / DigitalOcean sync program:

* the entity schemas come from
  `integration_limbo/integrations/netbox_to_digitalocean/models.py`
  (`_modelname`, `_identifiers`, `_attributes` of each `DiffSyncModel`);
* the `top_level` grouping and the CRUD methods come from
  `integration_limbo/adapters/netbox_adapter.py` and
  `integration_limbo/adapters/digital_ocean_adapter.py`;
* the orchestration (`run_sync`: dry-run branch, sync branch with a
  creations/updates pass followed by a re-diff and a deletion loop) comes from
  `integration_limbo/integrations/netbox_to_digitalocean/main.py`;
* the diff and reconcile engines themselves live in the external `diffsync`
  library, which is not part of this repository; those parts are modelled
  from the specification (sections 3, 4.3 and 4.4) and are marked
  `Modelled from the spec:` in their doc comments.
-/

namespace IntegrationLimbo

/-- The five entity types of the integration, named by the `_modelname`
fields in `models.py`. -/
inductive EntityType
  | manufacturer
  | device_type
  | device_role
  | site
  | device
deriving DecidableEq, Repr, Fintype

/-- Modelled from the spec: the declared dependency order of entity types
(spec section 3: "Manufacturer, DeviceType, DeviceRole, Site, Device";
every type may only reference types declared earlier). -/
def declaredOrder : List EntityType :=
  [.manufacturer, .device_type, .device_role, .site, .device]

/-- Index of an entity type in the declared dependency order. -/
def declIdx : EntityType → Nat
  | .manufacturer => 0
  | .device_type => 1
  | .device_role => 2
  | .site => 3
  | .device => 4

/-- `top_level = ["site", "manufacturer", "device_role"]`, as declared
identically in `NetBoxAdapter` and `DigitalOceanAdapter`. -/
def top_level : List EntityType := [.site, .manufacturer, .device_role]

/-- Position of an entity type in the `top_level` list (types that are not
top-level are mapped after all top-level ones). -/
def topIdx : EntityType → Nat
  | .site => 0
  | .manufacturer => 1
  | .device_role => 2
  | .device_type => 3
  | .device => 4

/-- `references U T` holds when entities of type `U` carry an attribute that
names an entity of type `T`: from `models.py`, `device_type.manufacturer_name`
and `device.{device_type_name, device_role_name, site_name}`. -/
def references : EntityType → EntityType → Bool
  | .device_type, .manufacturer => true
  | .device, .device_type => true
  | .device, .device_role => true
  | .device, .site => true
  | _, _ => false

/-- Attribute set of one entity: field name to string value, as the models
are flat string-typed records. -/
abbrev Attrs := List (String × String)

/-- A Graph: for each entity type, the entities of that type keyed by their
natural key (the `_identifiers` value: `name`, or `model` for device types). -/
abbrev Graph := EntityType → List (String × Attrs)

/-- The diffed attribute fields of each model, from `_attributes` in
`models.py`.  `ManufacturerModel._attributes` is literally
`("description", "description", "slug")`; diffsync reads the attributes into
a Python dict (`get_attrs`), so the duplicated name collapses and the
effective field set is deduplicated. -/
def modelFields : EntityType → List String
  | .manufacturer => ["description", "slug"]
  | .device_type => ["manufacturer_name", "slug"]
  | .device_role => ["slug"]
  | .site => ["slug"]
  | .device => ["device_type_name", "device_role_name", "site_name", "status"]

/-- The cross-type reference fields of each model together with the type they
refer to, matching the lookups performed by the `create`/`update` methods in
`netbox_adapter.py`. -/
def refFields : EntityType → List (String × EntityType)
  | .device_type => [("manufacturer_name", .manufacturer)]
  | .device =>
      [("device_type_name", .device_type), ("device_role_name", .device_role),
       ("site_name", .site)]
  | _ => []

/-- Keys (natural keys) of an entity list. -/
def keysOf (l : List (String × Attrs)) : List String := l.map Prod.fst

/-- Value of attribute `f`, with the empty string for a missing field. -/
def attrVal (a : Attrs) (f : String) : String := (a.lookup f).getD ""

/-- The empty graph. -/
def emptyGraph : Graph := fun _ => []

/-- Append one entity to a graph (diffsync's `add` appends to the store). -/
def insertEnt (g : Graph) (t : EntityType) (k : String) (a : Attrs) : Graph :=
  fun u => if u = t then g t ++ [(k, a)] else g u

/-! ## DiffEngine (spec section 4.3)

The diff computation is performed by the external `diffsync` library
(`local_netbox.diff_from(digital_ocean)` in `main.py`), whose source is not
part of this repository; it is modelled here from the spec's description of
`compute(source, destination)`. -/

/-- A record of the computed Diff (spec section 3): CREATE carries the full
source attributes, UPDATE carries only the changed fields as
`(field, old, new)` triples, DELETE carries only the identity. -/
inductive DiffRecord
  | create (t : EntityType) (key : String) (attrs : Attrs)
  | update (t : EntityType) (key : String) (changes : List (String × String × String))
  | delete (t : EntityType) (key : String)
deriving DecidableEq, Repr

/-- Insert a key into a list sorted lexicographically. -/
def insertSorted (x : String) : List String → List String
  | [] => [x]
  | y :: ys => if x ≤ y then x :: y :: ys else y :: insertSorted x ys

/-- Modelled from the spec: within a type, records are ordered
deterministically by NaturalKey (lexicographic), spec section 3. -/
def sortKeys (ks : List String) : List String := ks.foldr insertSorted []

/-- Modelled from the spec: compare each declared attribute field by exact
equality; the changed fields are reported as `(field, old, new)` where `old`
is the destination value and `new` the source value (spec section 4.3,
scenario D). -/
def changedFields (t : EntityType) (sa da : Attrs) : List (String × String × String) :=
  (modelFields t).filterMap fun f =>
    let sv := attrVal sa f
    let dv := attrVal da f
    if sv = dv then none else some (f, dv, sv)

/-- Modelled from the spec: for every NaturalKey in source not present in
destination, emit CREATE with full source attributes (spec section 4.3,
step 1). -/
def createsFor (t : EntityType) (src dst : List (String × Attrs)) : List DiffRecord :=
  (sortKeys (keysOf src)).filterMap fun k =>
    if k ∈ keysOf dst then none
    else (src.lookup k).map fun a => DiffRecord.create t k a

/-- Modelled from the spec: for every NaturalKey present in both, emit UPDATE
carrying only the changed fields, or nothing when none differ (spec section
4.3, step 2). -/
def updatesFor (t : EntityType) (src dst : List (String × Attrs)) : List DiffRecord :=
  (sortKeys (keysOf src)).filterMap fun k =>
    match src.lookup k, dst.lookup k with
    | some sa, some da =>
        let ch := changedFields t sa da
        if ch.isEmpty then none else some (DiffRecord.update t k ch)
    | _, _ => none

/-- Modelled from the spec: for every NaturalKey present in destination but
not in source, emit DELETE (spec section 4.3, step 3). -/
def deletesFor (t : EntityType) (src dst : List (String × Attrs)) : List DiffRecord :=
  (sortKeys (keysOf dst)).filterMap fun k =>
    if k ∈ keysOf src then none else some (DiffRecord.delete t k)

/-- The per-type group of the Diff: creates, then updates, then deletes. -/
def blockFor (G H : Graph) (t : EntityType) : List DiffRecord :=
  createsFor t (G t) (H t) ++ updatesFor t (G t) (H t) ++ deletesFor t (G t) (H t)

/-- Modelled from the spec: `compute(source, destination)`, executed once per
EntityType in declared dependency order (spec section 4.3). -/
def compute (G H : Graph) : List DiffRecord :=
  declaredOrder.flatMap (blockFor G H)

/-! ## The diffsync-shaped Diff object

The deletion loop of `run_sync` (main.py lines 125-136) walks the `Diff`
object returned by `diff_from`: `diff.groups()` (the top-level model names)
and, for each group, the immediate `diff.children[obj_type].values()`
elements, each with an `action` and possibly nested child elements.  The
`Diff` class lives in the external `diffsync` library; its shape is modelled
from the spec (section 3: the Diff is grouped by EntityType; `childRefs`
record ownership edges) together with the `top_level` lists declared by both
adapters in src.  Devices nest under their site and device types under their
manufacturer, mirroring the `add_child` calls in the adapters' load methods.
diffsync prunes elements that carry no diff at all; pruning is not modelled
because the deletion loop only reads elements whose action is DELETE, which
are never pruned. -/

/-- The three actions of a diff element. -/
inductive Action
  | create
  | update
  | delete
deriving DecidableEq, Repr

/-- One element of the diffsync diff tree: an entity, its action (none when
the two sides agree), and the immediate child elements. -/
structure DiffElem where
  etype : EntityType
  name : String
  action : Option Action
  children : List DiffElem
deriving Repr

/-- The diffsync diff: the top-level groups in `top_level` order, each with
its immediate elements. -/
structure DiffTree where
  groups : List (EntityType × List DiffElem)
deriving Repr

/-- Action attached to key `k` of type `t` when diffing destination (`dst`)
from source (`src`): CREATE when only the source has it, DELETE when only
the destination has it, UPDATE when both have it with differing declared
attributes, none when they agree. -/
def actionFor (t : EntityType) (src dst : Graph) (k : String) : Option Action :=
  match (src t).lookup k, (dst t).lookup k with
  | some sa, some da =>
      if (changedFields t sa da).isEmpty then none else some Action.update
  | some _, none => some Action.create
  | none, some _ => some Action.delete
  | none, none => none

/-- The child type nested under a top-level type, with the attribute field of
the child that names its parent: devices group under their site, device
types under their manufacturer (the `add_child` calls in both adapters). -/
def childTypeOf : EntityType → Option (EntityType × String)
  | .site => some (.device, "site_name")
  | .manufacturer => some (.device_type, "manufacturer_name")
  | _ => none

/-- Keys appearing on either side for type `t`: destination keys first, then
source-only keys. -/
def elemKeys (t : EntityType) (src dst : Graph) : List String :=
  keysOf (dst t) ++ (keysOf (src t)).filter fun k => k ∉ keysOf (dst t)

/-- The parent-naming attribute value of entity `k` of type `t`, read from
the destination when present, otherwise from the source. -/
def parentRefVal (t : EntityType) (f : String) (src dst : Graph) (k : String) : String :=
  match (dst t).lookup k with
  | some a => attrVal a f
  | none =>
      match (src t).lookup k with
      | some a => attrVal a f
      | none => ""

/-- Immediate child elements of entity `k` of top-level type `t`. -/
def childElems (src dst : Graph) (t : EntityType) (k : String) : List DiffElem :=
  match childTypeOf t with
  | none => []
  | some (ct, f) =>
      (elemKeys ct src dst).filterMap fun kc =>
        if parentRefVal ct f src dst kc = k then
          some ⟨ct, kc, actionFor ct src dst kc, []⟩
        else none

/-- The immediate elements of top-level group `t`. -/
def topElems (src dst : Graph) (t : EntityType) : List DiffElem :=
  (elemKeys t src dst).map fun k =>
    ⟨t, k, actionFor t src dst k, childElems src dst t k⟩

/-- `dst.diff_from(src)`: the diffsync diff tree, grouped by the `top_level`
types declared in the two adapters. -/
def diff_from (src dst : Graph) : DiffTree :=
  ⟨top_level.map fun t => (t, topElems src dst t)⟩

/-- `true` when the tree holds a DELETE element for `(t, k)`, at the top
level or as an immediate child. -/
def treeHasDelete (d : DiffTree) (t : EntityType) (k : String) : Bool :=
  d.groups.any fun g =>
    g.2.any fun e =>
      (decide (e.etype = t) && decide (e.name = k)
        && decide (e.action = some Action.delete))
      || e.children.any fun c =>
          decide (c.etype = t) && decide (c.name = k)
            && decide (c.action = some Action.delete)

/-- `true` when no element of the tree (top level or immediate child)
carries an action. -/
def treeClean (d : DiffTree) : Bool :=
  d.groups.all fun g =>
    g.2.all fun e => e.action.isNone && e.children.all fun c => c.action.isNone

/-! ## ReconcileEngine phase 1 (spec section 4.4)

`run_sync` performs creations and updates through
`local_netbox.sync_from(digital_ocean, flags=DiffSyncFlags.SKIP_UNMATCHED_DST)`
(main.py line 117); the engine applying the diff is the external `diffsync`
library.  Modelled from the spec: phase 1 iterates EntityTypes in declared
(parent-first) order; for each CREATE record it verifies that every
cross-type attribute reference resolves in the working destination graph,
skipping the record otherwise (SKIPPED_DEPENDENCY), and on success inserts
the created entity into the working graph; UPDATE records follow the same
resolution rule for changed reference fields.  `SKIP_UNMATCHED_DST` means
phase 1 applies no DELETE record. -/

/-- An adapter mutation call, in the order the engine issues them. -/
inductive AdapterCall
  | createCall (t : EntityType) (key : String)
  | updateCall (t : EntityType) (key : String)
deriving DecidableEq, Repr

/-- The entity type a mutation call addresses. -/
def callType : AdapterCall → EntityType
  | .createCall t _ => t
  | .updateCall t _ => t

/-- Working state of phase 1: the destination graph as materialized so far,
and the adapter calls issued so far. -/
structure P1 where
  W : Graph
  calls : List AdapterCall

/-- All cross-type reference fields of `a` resolve in the working graph. -/
def resolveAll (W : Graph) (t : EntityType) (a : Attrs) : Bool :=
  (refFields t).all fun fr => ((W fr.2).lookup (attrVal a fr.1)).isSome

/-- The changed reference fields of an UPDATE all resolve in the working
graph. -/
def resolveChanged (W : Graph) (t : EntityType)
    (changes : List (String × String × String)) : Bool :=
  changes.all fun c =>
    match (refFields t).lookup c.1 with
    | some rt => ((W rt).lookup c.2.2).isSome
    | none => true

/-- Overwrite field `f` with value `v` in an attribute list. -/
def setAttr (a : Attrs) (f v : String) : Attrs :=
  if (a.lookup f).isSome then a.map fun e => if e.1 = f then (f, v) else e
  else a ++ [(f, v)]

/-- Apply the `(field, old, new)` changes of an UPDATE record. -/
def applyChanges (a : Attrs) (changes : List (String × String × String)) : Attrs :=
  changes.foldl (fun acc c => setAttr acc c.1 c.2.2) a

/-- Replace the attributes of entity `k`. -/
def replaceAttrs (l : List (String × Attrs)) (k : String) (a : Attrs) :
    List (String × Attrs) :=
  l.map fun e => if e.1 = k then (k, a) else e

/-- Modelled from the spec: apply one CREATE or UPDATE record of type `t`
(spec section 4.4, phase 1).  An unresolved reference or a missing target
entity leaves the state unchanged (the record is skipped, no adapter call). -/
def p1Apply (t : EntityType) (s : P1) : DiffRecord → P1
  | .create _ k a =>
      if resolveAll s.W t a then
        { W := fun u => if u = t then s.W t ++ [(k, a)] else s.W u,
          calls := s.calls ++ [.createCall t k] }
      else s
  | .update _ k ch =>
      match (s.W t).lookup k with
      | some wa =>
          if resolveChanged s.W t ch then
            { W := fun u =>
                if u = t then replaceAttrs (s.W t) k (applyChanges wa ch) else s.W u,
              calls := s.calls ++ [.updateCall t k] }
          else s
      | none => s
  | .delete _ _ => s

/-- The CREATE and UPDATE records of type `t` in a diff. -/
def cuRecordsOf (t : EntityType) (diff : List DiffRecord) : List DiffRecord :=
  diff.filter fun r =>
    match r with
    | .create t' _ _ => decide (t' = t)
    | .update t' _ _ => decide (t' = t)
    | .delete _ _ => false

/-- Modelled from the spec: phase 1 of `sync_from` under
`SKIP_UNMATCHED_DST` — creates and updates only, one EntityType completely
before the next, in declared parent-first order (spec section 4.4). -/
def sync_from (src dst : Graph) : P1 :=
  declaredOrder.foldl
    (fun s t => (cuRecordsOf t (compute src dst)).foldl (p1Apply t) s)
    ⟨dst, []⟩

/-! ## The deletion pass of `run_sync` (main.py lines 119-136)

Faithful to the source: after phase 1 the diff is recomputed
(`diff = local_netbox.diff_from(digital_ocean)`), then

    for obj_type in diff.groups():
        for diff_element in diff.children[obj_type].values():
            if diff_element.action == DiffSyncActions.DELETE:
                obj = local_netbox.get(diff_element.type, diff_element.keys)
                if obj: success = obj.delete(); log deleted / failed
                else: log warning (not found in destination)

Only the immediate elements of each top-level group are visited; nested
child elements are never reached.  `backendOk t k` abstracts whether the
backend delete call for entity `(t, k)` reports success. -/

/-- Log entries of the deletion loop. -/
inductive DelLog
  | deleted (t : EntityType) (k : String)
  | deleteFailed (t : EntityType) (k : String)
  | notFoundWarn (t : EntityType) (k : String)
deriving DecidableEq, Repr

/-- The entity type a deletion-loop log entry concerns. -/
def logType : DelLog → EntityType
  | .deleted t _ => t
  | .deleteFailed t _ => t
  | .notFoundWarn t _ => t

/-- One group's slice of the deletion loop. -/
def deletionBlock (store : Graph) (backendOk : EntityType → String → Bool)
    (t : EntityType) (elems : List DiffElem) : List DelLog :=
  elems.filterMap fun e =>
    if e.action = some Action.delete then
      if ((store t).lookup e.name).isSome then
        some (if backendOk t e.name then .deleted t e.name else .deleteFailed t e.name)
      else some (.notFoundWarn t e.name)
    else none

/-- The deletion loop over the whole diff, in `diff.groups()` order. -/
def deletionPass (store : Graph) (d : DiffTree)
    (backendOk : EntityType → String → Bool) : List DelLog :=
  d.groups.flatMap fun g => deletionBlock store backendOk g.1 g.2

/-- The `obj.delete()` invocations of the deletion loop, in order (a warning
entry corresponds to no invocation). -/
def deleteCalls (logs : List DelLog) : List (EntityType × String) :=
  logs.filterMap fun l =>
    match l with
    | .deleted t k => some (t, k)
    | .deleteFailed t k => some (t, k)
    | .notFoundWarn _ _ => none

/-! ## Adapter code embedded from src -/

/-- Outcome of the NetBox backend interaction inside
`ManufacturerNetBoxModel.delete` (netbox_adapter.py lines 59-74): the
`manufacturers.get(self.id)` lookup finds nothing, or the `.delete()` call
returns a falsy response, returns a truthy response, or raises. -/
inductive BackendDelete
  | notFound
  | respFalse
  | respTrue
  | raised
deriving DecidableEq, Repr

/-- Faithful to `ManufacturerNetBoxModel.delete`: `some ()` is the success
return (`super().delete()`), `none` the `return None` fallthrough reached
when the entity is not found, when the backend response is falsy, and when
an exception is raised — all three only log an error. -/
def manufacturerDelete : BackendDelete → Option Unit
  | .notFound => none
  | .respFalse => none
  | .respTrue => some ()
  | .raised => none

/-- A DigitalOcean droplet as read by `DigitalOceanAdapter.load_devices`. -/
structure Droplet where
  name : String
  size_slug : String
  region_name : String
  region_slug : String
deriving DecidableEq, Repr

/-- Outcome of the `requests.get(.../droplets)` call in `load_devices`. -/
inductive FetchResult
  | ok (droplets : List Droplet)
  | reqError
deriving Repr

/-- One iteration of the droplet loop in `load_devices`
(digital_ocean_adapter.py lines 106-174): get-or-create the device type for
`size_slug`, get-or-create the site for the region, then add the device; a
duplicate droplet name would make `add` raise, which the per-droplet
`except` swallows, so the device is skipped. -/
def processDroplet (g : Graph) (d : Droplet) : Graph :=
  let g1 :=
    if ((g .device_type).lookup d.size_slug).isSome then g
    else insertEnt g .device_type d.size_slug
      [("manufacturer_name", "DigitalOcean"), ("slug", d.size_slug)]
  let g2 :=
    if ((g1 .site).lookup d.region_name).isSome then g1
    else insertEnt g1 .site d.region_name [("slug", d.region_slug)]
  if ((g2 .device).lookup d.name).isSome then g2
  else insertEnt g2 .device d.name
    [("device_type_name", d.size_slug), ("device_role_name", "Droplet"),
     ("site_name", d.region_name), ("status", "active")]

/-- Faithful to `DigitalOceanAdapter.load` (digital_ocean_adapter.py lines
42-57): load the fixed manufacturer "DigitalOcean" and the fixed device role
"Droplet", then load the droplets.  Every exception in `load` and in
`load_devices` is caught and merely logged — on a failed droplets fetch the
function returns normally with whatever was loaded so far. -/
def digital_ocean_load (fetch : FetchResult) : Graph :=
  let g0 := insertEnt emptyGraph .manufacturer "DigitalOcean"
    [("description", "Cloud provider"), ("slug", "digitalocean")]
  let g1 := insertEnt g0 .device_role "Droplet" [("slug", "droplet")]
  match fetch with
  | .reqError => g1
  | .ok ds => ds.foldl processDroplet g1

/-! ## `run_sync` (main.py lines 70-139) -/

/-- The mutually exclusive operating modes `--dry-run` and `--sync`. -/
inductive Mode
  | dry
  | sync
deriving DecidableEq, Repr

/-- Observable outcome of one `run_sync` invocation: the diff it prints
(dry) or recomputes for the deletion pass (sync), the phase-1 adapter calls,
the deletion-loop log, the destination store when the run finishes, and the
process exit code. -/
structure RunResult where
  diffOut : DiffTree
  calls : List AdapterCall
  delLogs : List DelLog
  finalDst : Graph
  exitCode : Nat

/-- Faithful to the structure of `run_sync` after both loads: the dry-run
branch computes and prints the diff and exits 0 without any adapter
mutation; the sync branch runs `sync_from` with `SKIP_UNMATCHED_DST`
(creations and updates only), recomputes the diff, runs the deletion loop,
and reaches `sys.exit(0)` unconditionally. -/
def run_sync (mode : Mode) (src dst : Graph)
    (backendOk : EntityType → String → Bool) : RunResult :=
  match mode with
  | .dry =>
      { diffOut := diff_from src dst, calls := [], delLogs := [],
        finalDst := dst, exitCode := 0 }
  | .sync =>
      let p := sync_from src dst
      let d := diff_from src p.W
      { diffOut := d, calls := p.calls,
        delLogs := deletionPass p.W d backendOk,
        finalDst := p.W, exitCode := 0 }

/-! ## Concrete fixtures used by counterexamples and witnesses -/

/-- Backend that reports every delete as succeeded. -/
def okTrue : EntityType → String → Bool := fun _ _ => true

/-- Backend that reports every delete as failed. -/
def okFalse : EntityType → String → Bool := fun _ _ => false

/-- Destination with a manufacturer `m` and a device type `dt` referencing
it. -/
def dstManuDT : Graph := fun t =>
  match t with
  | .manufacturer => [("m", [("description", ""), ("slug", "m")])]
  | .device_type => [("dt", [("manufacturer_name", "m"), ("slug", "dt")])]
  | _ => []

/-- Source with only the site `ams3`. -/
def srcSiteOnly : Graph := fun t =>
  match t with
  | .site => [("ams3", [("slug", "ams3")])]
  | _ => []

/-- Destination with the site `ams3` (same attributes as the source) plus a
device `web1` on that site that the source does not have. -/
def dstSiteDevice : Graph := fun t =>
  match t with
  | .site => [("ams3", [("slug", "ams3")])]
  | .device =>
      [("web1",
        [("device_type_name", "dt"), ("device_role_name", "r"),
         ("site_name", "ams3"), ("status", "active")])]
  | _ => []

/-- Destination with only the site `nyc1`. -/
def dstSiteNyc : Graph := fun t =>
  match t with
  | .site => [("nyc1", [("slug", "nyc1")])]
  | _ => []

/-- Source of spec scenario C: a manufacturer and a device type referencing
it. -/
def srcScenC : Graph := fun t =>
  match t with
  | .manufacturer =>
      [("DigitalOcean", [("description", "Cloud provider"), ("slug", "digitalocean")])]
  | .device_type =>
      [("s-1vcpu-1gb", [("manufacturer_name", "DigitalOcean"), ("slug", "s-1vcpu-1gb")])]
  | _ => []

/-- Source of spec scenario D: site `nyc1` with slug `nyc1`. -/
def srcScenD : Graph := fun t =>
  match t with
  | .site => [("nyc1", [("slug", "nyc1")])]
  | _ => []

/-- Destination of spec scenario D: site `nyc1` with slug `nyc-1`. -/
def dstScenD : Graph := fun t =>
  match t with
  | .site => [("nyc1", [("slug", "nyc-1")])]
  | _ => []

/-- Destination with only the manufacturer `m`. -/
def dstManuOnly : Graph := fun t =>
  match t with
  | .manufacturer => [("m", [("description", ""), ("slug", "m")])]
  | _ => []

/-! ## Helper lemmas -/

theorem lookup_isSome_iff (l : List (String × Attrs)) (k : String) :
    (l.lookup k).isSome ↔ k ∈ keysOf l := by
  induction l with
  | nil => simp [keysOf]
  | cons e l ih =>
    rcases e with ⟨a, b⟩
    by_cases h : k = a
    · subst h
      simp [List.lookup_cons, keysOf]
    · have hbeq : (k == a) = false := beq_false_of_ne h
      simp only [List.lookup_cons, hbeq, keysOf, List.map_cons, List.mem_cons]
      simp only [keysOf] at ih
      simp [h, ih]

theorem lookup_eq_none_iff (l : List (String × Attrs)) (k : String) :
    l.lookup k = none ↔ k ∉ keysOf l := by
  rw [← lookup_isSome_iff, ← Option.not_isSome_iff_eq_none]

theorem lookup_mem_of_isSome (l : List (String × Attrs)) (k : String) (a : Attrs)
    (h : l.lookup k = some a) : k ∈ keysOf l :=
  (lookup_isSome_iff l k).mp (by simp [h])

theorem insertSorted_perm (x : String) (l : List String) :
    List.Perm (insertSorted x l) (x :: l) := by
  induction l with
  | nil => simp [insertSorted]
  | cons y ys ih =>
    unfold insertSorted
    split
    · exact List.Perm.refl _
    · exact (ih.cons y).trans (List.Perm.swap x y ys)

theorem sortKeys_perm (ks : List String) : List.Perm (sortKeys ks) ks := by
  induction ks with
  | nil => simp [sortKeys]
  | cons k ks ih =>
    have h1 : sortKeys (k :: ks) = insertSorted k (sortKeys ks) := rfl
    rw [h1]
    exact (insertSorted_perm k (sortKeys ks)).trans (ih.cons k)

theorem mem_sortKeys (ks : List String) (k : String) :
    k ∈ sortKeys ks ↔ k ∈ ks :=
  (sortKeys_perm ks).mem_iff

theorem nodup_sortKeys (ks : List String) (h : ks.Nodup) : (sortKeys ks).Nodup :=
  ((sortKeys_perm ks).nodup_iff).mpr h

theorem filterMap_eq_single {α β : Type} (f : α → Option β) (l : List α)
    (a : α) (b : β) (hnd : l.Nodup) (ha : a ∈ l) (hfa : f a = some b)
    (hother : ∀ x ∈ l, x ≠ a → f x = none) : l.filterMap f = [b] := by
  induction l with
  | nil => cases ha
  | cons x l ih =>
    rcases List.mem_cons.mp ha with h | h
    · subst h
      have hnil : l.filterMap f = [] := by
        refine List.filterMap_eq_nil_iff.mpr fun y hy => ?_
        refine hother y (List.mem_cons_of_mem _ hy) fun hya => ?_
        subst hya
        exact (List.nodup_cons.mp hnd).1 hy
      simp [List.filterMap_cons, hfa, hnil]
    · have hxa : x ≠ a := by
        rintro rfl
        exact (List.nodup_cons.mp hnd).1 h
      have hx : f x = none := hother x (List.mem_cons_self x l) hxa
      have := ih (List.nodup_cons.mp hnd).2 h
        (fun y hy hya => hother y (List.mem_cons_of_mem _ hy) hya)
      simp [List.filterMap_cons, hx, this]

theorem changedFields_self (t : EntityType) (a : Attrs) : changedFields t a a = [] := by
  unfold changedFields
  exact List.filterMap_eq_nil_iff.mpr fun f _ => by simp

theorem actionFor_self (t : EntityType) (G : Graph) (k : String) :
    actionFor t G G k = none := by
  unfold actionFor
  cases h : (G t).lookup k with
  | none => simp [h]
  | some a => simp [h, changedFields_self]

theorem createsFor_self (t : EntityType) (l : List (String × Attrs)) :
    createsFor t l l = [] := by
  unfold createsFor
  refine List.filterMap_eq_nil_iff.mpr fun k hk => ?_
  have : k ∈ keysOf l := (mem_sortKeys _ _).mp hk
  simp [this]

theorem updatesFor_self (t : EntityType) (l : List (String × Attrs)) :
    updatesFor t l l = [] := by
  unfold updatesFor
  refine List.filterMap_eq_nil_iff.mpr fun k _ => ?_
  cases h : l.lookup k with
  | none => simp [h]
  | some a => simp [h, changedFields_self]

theorem deletesFor_self (t : EntityType) (l : List (String × Attrs)) :
    deletesFor t l l = [] := by
  unfold deletesFor
  refine List.filterMap_eq_nil_iff.mpr fun k hk => ?_
  have : k ∈ keysOf l := (mem_sortKeys _ _).mp hk
  simp [this]

theorem blockFor_self (G : Graph) (t : EntityType) : blockFor G G t = [] := by
  unfold blockFor
  rw [createsFor_self, updatesFor_self, deletesFor_self]
  rfl

/-- C5: computing the diff of a Graph against itself yields no record: the
flat spec-section-4.3 diff is empty, and every element of the diffsync diff
tree carries no action. -/
theorem c5_idempotent (G : Graph) :
    compute G G = [] ∧ treeClean (diff_from G G) = true := by
  constructor
  · simp [compute, declaredOrder, blockFor_self]
  · unfold treeClean diff_from
    rw [List.all_eq_true]
    intro g hg
    obtain ⟨t, _, rfl⟩ := List.mem_map.mp hg
    rw [List.all_eq_true]
    intro e he
    obtain ⟨k, _, rfl⟩ := List.mem_map.mp he
    simp only [actionFor_self, Option.isNone_none, Bool.true_and]
    rw [List.all_eq_true]
    intro c hc
    unfold childElems at hc
    cases hct : childTypeOf t with
    | none => rw [hct] at hc; cases hc
    | some p =>
      rw [hct] at hc
      obtain ⟨kc, _, hkc⟩ := List.mem_filterMap.mp hc
      by_cases hp : parentRefVal p.1 p.2 G G kc = k
      · rw [if_pos hp] at hkc
        cases hkc
        simp [actionFor_self]
      · rw [if_neg hp] at hkc
        cases hkc

/-- C8: the dry-run branch of `run_sync` issues no adapter create, update or
delete call, leaves the destination store untouched, and still produces the
diff (which it prints as the human-readable report) and exits 0. -/
theorem c8_dry_run_no_mutation (src dst : Graph) (ok : EntityType → String → Bool) :
    (run_sync Mode.dry src dst ok).calls = [] ∧
    (run_sync Mode.dry src dst ok).delLogs = [] ∧
    (run_sync Mode.dry src dst ok).finalDst = dst ∧
    (run_sync Mode.dry src dst ok).diffOut = diff_from src dst ∧
    (run_sync Mode.dry src dst ok).exitCode = 0 :=
  ⟨rfl, rfl, rfl, rfl, rfl⟩

/-- C9: counterexample — `ManufacturerNetBoxModel.delete` returns `None`
when the manufacturer is not found in NetBox, the very same failure value it
returns for a blocked or failed backend delete; a missing entity is logged
as an error, not treated as an already-applied success. -/
theorem c9_counterexample :
    manufacturerDelete BackendDelete.notFound = none ∧
    manufacturerDelete BackendDelete.notFound
      = manufacturerDelete BackendDelete.respFalse :=
  ⟨rfl, rfl⟩

/-- C9 (amended): `delete` succeeds exactly when the backend delete call
returns a truthy response; not-found, falsy-response and raised-exception
outcomes all collapse into the same `None` failure return, which the sync
loop logs as a failed deletion. -/
theorem c9_delete_result (b : BackendDelete) :
    manufacturerDelete b = if b = BackendDelete.respTrue then some () else none := by
  cases b <;> rfl

/-- C7: counterexample — a sync run whose only record is a DELETE that the
backend fails still reaches `sys.exit(0)`: the failure is only logged and
the exit status stays 0. -/
theorem c7_counterexample :
    (run_sync Mode.sync emptyGraph dstManuOnly okFalse).delLogs
      = [DelLog.deleteFailed EntityType.manufacturer "m"] ∧
    (run_sync Mode.sync emptyGraph dstManuOnly okFalse).exitCode = 0 := by
  exact ⟨by decide, rfl⟩

/-- C7 (amended): once `run_sync` reaches the end of its dry-run or sync
branch it always exits 0, whatever the per-record outcomes were; per-record
failures are only logged, never reflected in the exit status. -/
theorem c7_exit_zero (mode : Mode) (src dst : Graph)
    (ok : EntityType → String → Bool) :
    (run_sync mode src dst ok).exitCode = 0 := by
  cases mode <;> rfl

/-- C3: counterexample — when the droplets fetch fails mid-load,
`DigitalOceanAdapter.load` does not fail: it catches the exception, logs it,
and returns normally with a partial Graph that already holds the
manufacturer and no devices. -/
theorem c3_counterexample :
    (digital_ocean_load FetchResult.reqError) EntityType.manufacturer
      = [("DigitalOcean", [("description", "Cloud provider"), ("slug", "digitalocean")])] ∧
    (digital_ocean_load FetchResult.reqError) EntityType.device = [] := by
  exact ⟨by decide, by decide⟩

/-- C3 (amended): the run does not abort on the failed load — it proceeds to
diff and apply with the partial snapshot, here deleting the destination's
site `nyc1` because the partial source no longer mentions it. -/
theorem c3_degraded_load_run :
    deleteCalls
        (run_sync Mode.sync (digital_ocean_load FetchResult.reqError) dstSiteNyc okTrue).delLogs
      = [(EntityType.site, "nyc1")] := by
  decide

/-- C1: counterexample — with a destination-only manufacturer `m` and a
destination-only device type `dt` that references it, the sync run performs
the delete of the referenced manufacturer while the DELETE record of the
dependent device type (present in the diff tree) is never applied: deletes
of a dependent type are not performed before deletes of the type it
references, and types are not iterated in reverse declared order. -/
theorem c1_counterexample :
    deleteCalls (run_sync Mode.sync emptyGraph dstManuDT okTrue).delLogs
      = [(EntityType.manufacturer, "m")] ∧
    treeHasDelete (run_sync Mode.sync emptyGraph dstManuDT okTrue).diffOut
        EntityType.device_type "dt" = true := by
  exact ⟨by decide, by decide⟩

/-- C2: counterexample — with `skipUnmatchedDestination` effectively false
(the sync branch, which does process deletions), a Device present only in
the destination yields a DELETE record in the diff tree but the run never
applies it: the deletion loop does not reach nested device elements. -/
theorem c2_counterexample :
    treeHasDelete (run_sync Mode.sync srcSiteOnly dstSiteDevice okTrue).diffOut
        EntityType.device "web1" = true ∧
    deleteCalls (run_sync Mode.sync srcSiteOnly dstSiteDevice okTrue).delLogs = [] := by
  exact ⟨by decide, by decide⟩

theorem logType_mem_deletionBlock (store : Graph) (ok : EntityType → String → Bool)
    (t : EntityType) (elems : List DiffElem) (x : DelLog)
    (hx : x ∈ deletionBlock store ok t elems) : logType x = t := by
  unfold deletionBlock at hx
  obtain ⟨e, _, he⟩ := List.mem_filterMap.mp hx
  by_cases ha : e.action = some Action.delete
  · rw [if_pos ha] at he
    by_cases hs : ((store t).lookup e.name).isSome = true
    · rw [if_pos hs] at he
      cases he
      by_cases hok : ok t e.name = true <;> simp [hok, logType]
    · rw [if_neg hs] at he
      cases he
      rfl
  · rw [if_neg ha] at he
    cases he

theorem fst_mem_deleteCalls_block (store : Graph) (ok : EntityType → String → Bool)
    (t : EntityType) (elems : List DiffElem) (x : EntityType × String)
    (hx : x ∈ deleteCalls (deletionBlock store ok t elems)) : x.1 = t := by
  unfold deleteCalls at hx
  obtain ⟨l, hl, he⟩ := List.mem_filterMap.mp hx
  have ht := logType_mem_deletionBlock store ok t elems l hl
  cases l with
  | deleted t' k => cases he; exact ht
  | deleteFailed t' k => cases he; exact ht
  | notFoundWarn t' k => cases he

theorem diff_from_groups (src dst : Graph) :
    (diff_from src dst).groups =
      [(EntityType.site, topElems src dst .site),
       (EntityType.manufacturer, topElems src dst .manufacturer),
       (EntityType.device_role, topElems src dst .device_role)] := rfl

theorem deletionPass_eq (store : Graph) (d : DiffTree)
    (ok : EntityType → String → Bool) (g1 g2 g3 : EntityType × List DiffElem)
    (hg : d.groups = [g1, g2, g3]) :
    deletionPass store d ok =
      deletionBlock store ok g1.1 g1.2 ++ deletionBlock store ok g2.1 g2.2
        ++ deletionBlock store ok g3.1 g3.2 := by
  unfold deletionPass
  rw [hg]
  simp [List.flatMap_cons, List.flatMap_nil]

/-- C10: in any sync run, the deletion loop only walks the top-level diff
groups and their immediate elements, so a delete is only ever invoked for a
top-level type (site, manufacturer, device_role) — never for a
destination-only device or device_type. -/
theorem c10_deletes_top_level_only (src dst : Graph)
    (ok : EntityType → String → Bool) :
    (deleteCalls (run_sync Mode.sync src dst ok).delLogs).all
      (fun c => decide (c.1 ∈ top_level)) = true := by
  rw [List.all_eq_true]
  intro c hc
  have hlogs : (run_sync Mode.sync src dst ok).delLogs =
      deletionPass (sync_from src dst).W
        (diff_from src (sync_from src dst).W) ok := rfl
  rw [hlogs, deletionPass_eq _ _ _ _ _ _ (diff_from_groups _ _)] at hc
  rw [deleteCalls, List.filterMap_append, List.filterMap_append] at hc
  rcases List.mem_append.mp hc with h | h
  · rcases List.mem_append.mp h with h1 | h1
    · have := fst_mem_deleteCalls_block _ _ _ _ _ h1
      rw [this]
      simp [top_level]
    · have := fst_mem_deleteCalls_block _ _ _ _ _ h1
      rw [this]
      simp [top_level]
  · have := fst_mem_deleteCalls_block _ _ _ _ _ h
    rw [this]
    simp [top_level]

/-- C1 (amended): the deletion pass of a sync run performs its deletes in
the fixed `top_level` group order — site, then manufacturer, then
device_role — which is the adapters' declared top-level order, not the
reverse of the dependency order; DELETE records of the dependent types
device and device_type are never applied at all (see the C10 theorem). -/
theorem c1_delete_order (src dst : Graph) (ok : EntityType → String → Bool) :
    List.Pairwise (fun a b => topIdx a.1 ≤ topIdx b.1)
      (deleteCalls (run_sync Mode.sync src dst ok).delLogs) := by
  have hlogs : (run_sync Mode.sync src dst ok).delLogs =
      deletionPass (sync_from src dst).W
        (diff_from src (sync_from src dst).W) ok := rfl
  rw [hlogs, deletionPass_eq _ _ _ _ _ _ (diff_from_groups _ _)]
  rw [deleteCalls, List.filterMap_append, List.filterMap_append]
  rw [List.pairwise_append]
  refine ⟨?_, ?_, ?_⟩
  · rw [List.pairwise_append]
    refine ⟨?_, ?_, ?_⟩
    · refine List.pairwise_of_forall_mem_list fun a ha b hb => ?_
      rw [fst_mem_deleteCalls_block _ _ _ _ _ ha, fst_mem_deleteCalls_block _ _ _ _ _ hb]
    · refine List.pairwise_of_forall_mem_list fun a ha b hb => ?_
      rw [fst_mem_deleteCalls_block _ _ _ _ _ ha, fst_mem_deleteCalls_block _ _ _ _ _ hb]
    · intro a ha b hb
      rw [fst_mem_deleteCalls_block _ _ _ _ _ ha, fst_mem_deleteCalls_block _ _ _ _ _ hb]
      simp [topIdx]
  · refine List.pairwise_of_forall_mem_list fun a ha b hb => ?_
    rw [fst_mem_deleteCalls_block _ _ _ _ _ ha, fst_mem_deleteCalls_block _ _ _ _ _ hb]
  · intro a ha b hb
    rcases List.mem_append.mp ha with h | h
    · rw [fst_mem_deleteCalls_block _ _ _ _ _ h, fst_mem_deleteCalls_block _ _ _ _ _ hb]
      simp [topIdx]
    · rw [fst_mem_deleteCalls_block _ _ _ _ _ h, fst_mem_deleteCalls_block _ _ _ _ _ hb]
      simp [topIdx]

theorem keysOf_replaceAttrs (l : List (String × Attrs)) (k : String) (a : Attrs) :
    keysOf (replaceAttrs l k a) = keysOf l := by
  unfold keysOf replaceAttrs
  rw [List.map_map]
  refine List.map_congr_left fun e _ => ?_
  by_cases h : e.1 = k
  · simp [h]
  · simp [h]

theorem p1Apply_keys (t : EntityType) (s : P1) (r : DiffRecord)
    (u : EntityType) (k : String) (h : k ∈ keysOf (s.W u)) :
    k ∈ keysOf ((p1Apply t s r).W u) := by
  cases r with
  | create t' k' a =>
    simp only [p1Apply]
    by_cases hres : resolveAll s.W t a = true
    · rw [if_pos hres]
      show k ∈ keysOf (if u = t then s.W t ++ [(k', a)] else s.W u)
      by_cases hu : u = t
      · rw [if_pos hu]
        have h2 : k ∈ keysOf (s.W t) := hu ▸ h
        unfold keysOf at h2 ⊢
        rw [List.map_append]
        exact List.mem_append_left _ h2
      · rw [if_neg hu]
        exact h
    · rw [if_neg hres]
      exact h
  | update t' k' ch =>
    simp only [p1Apply]
    cases hw : (s.W t).lookup k' with
    | none => exact h
    | some wa =>
      show k ∈ keysOf ((if resolveChanged s.W t ch = true then
          ({ W := fun v => if v = t then replaceAttrs (s.W t) k' (applyChanges wa ch) else s.W v,
             calls := s.calls ++ [AdapterCall.updateCall t k'] } : P1)
        else s).W u)
      by_cases hres : resolveChanged s.W t ch = true
      · rw [if_pos hres]
        show k ∈ keysOf
          (if u = t then replaceAttrs (s.W t) k' (applyChanges wa ch) else s.W u)
        by_cases hu : u = t
        · rw [if_pos hu, keysOf_replaceAttrs]
          exact hu ▸ h
        · rw [if_neg hu]
          exact h
      · rw [if_neg hres]
        exact h
  | delete t' k' => exact h

theorem foldl_p1Apply_keys (t : EntityType) (rs : List DiffRecord) (s : P1)
    (u : EntityType) (k : String) (h : k ∈ keysOf (s.W u)) :
    k ∈ keysOf ((rs.foldl (p1Apply t) s).W u) := by
  induction rs generalizing s with
  | nil => exact h
  | cons r rs ih => exact ih (p1Apply t s r) (p1Apply_keys t s r u k h)

theorem sync_from_keys (src dst : Graph) (u : EntityType) (k : String)
    (h : k ∈ keysOf (dst u)) : k ∈ keysOf ((sync_from src dst).W u) := by
  unfold sync_from
  simp only [declaredOrder, List.foldl_cons, List.foldl_nil]
  exact foldl_p1Apply_keys _ _ _ _ _ (foldl_p1Apply_keys _ _ _ _ _
    (foldl_p1Apply_keys _ _ _ _ _ (foldl_p1Apply_keys _ _ _ _ _
      (foldl_p1Apply_keys _ _ _ _ _ h))))

/-- C2 (amended): the sync run processes deletions unconditionally — there
is no `skipUnmatchedDestination` option: `run_sync` hardcodes
`SKIP_UNMATCHED_DST` for the creations/updates pass and then always runs the
deletion loop, which deletes every destination-only top-level entity (here:
any site present only in the destination); destination-only device and
device_type entities yield DELETE records the run never applies (see the C2
counterexample and the C10 theorem). -/
theorem c2_unconditional_delete (src dst : Graph)
    (ok : EntityType → String → Bool) (k : String)
    (hk : k ∈ keysOf (dst EntityType.site))
    (hnk : k ∉ keysOf (src EntityType.site)) :
    (EntityType.site, k) ∈
      deleteCalls (run_sync Mode.sync src dst ok).delLogs := by
  have hkW : k ∈ keysOf ((sync_from src dst).W EntityType.site) :=
    sync_from_keys src dst _ k hk
  have hlogs : (run_sync Mode.sync src dst ok).delLogs =
      deletionPass (sync_from src dst).W
        (diff_from src (sync_from src dst).W) ok := rfl
  rw [hlogs]
  set W := (sync_from src dst).W with hW
  have haction : actionFor EntityType.site src W k = some Action.delete := by
    unfold actionFor
    have h1 : (src EntityType.site).lookup k = none :=
      (lookup_eq_none_iff _ _).mpr hnk
    have h2 : ((W EntityType.site).lookup k).isSome :=
      (lookup_isSome_iff _ _).mpr hkW
    cases h3 : (W EntityType.site).lookup k with
    | none => rw [h3] at h2; cases h2
    | some da => rw [h1]
  have hkelem : k ∈ elemKeys EntityType.site src W := by
    unfold elemKeys
    exact List.mem_append_left _ hkW
  have helem : (⟨EntityType.site, k, actionFor EntityType.site src W k,
      childElems src W EntityType.site k⟩ : DiffElem)
      ∈ topElems src W EntityType.site := by
    unfold topElems
    exact List.mem_map.mpr ⟨k, hkelem, rfl⟩
  have hlog : ∃ l ∈ deletionBlock W ok EntityType.site
      (topElems src W EntityType.site),
      deleteCalls [l] = [(EntityType.site, k)] := by
    refine ⟨if ok EntityType.site k then DelLog.deleted EntityType.site k
      else DelLog.deleteFailed EntityType.site k, ?_, ?_⟩
    · unfold deletionBlock
      refine List.mem_filterMap.mpr ⟨_, helem, ?_⟩
      rw [if_pos haction, if_pos ((lookup_isSome_iff _ _).mpr hkW)]
    · by_cases hok : ok EntityType.site k = true <;> simp [hok, deleteCalls]
  obtain ⟨l, hl, hcall⟩ := hlog
  have hmem : l ∈ deletionPass W (diff_from src W) ok := by
    unfold deletionPass
    refine List.mem_flatMap.mpr ?_
    refine ⟨(EntityType.site, topElems src W EntityType.site), ?_, hl⟩
    rw [diff_from_groups]
    exact List.mem_cons_self _ _
  unfold deleteCalls at hcall ⊢
  refine List.mem_filterMap.mpr ?_
  have : ∃ y, (match l with
      | DelLog.deleted t k => some (t, k)
      | DelLog.deleteFailed t k => some (t, k)
      | DelLog.notFoundWarn _ _ => none) = some y ∧ y = (EntityType.site, k) := by
    cases l with
    | deleted t' k' =>
      simp only [List.filterMap] at hcall
      refine ⟨(t', k'), rfl, ?_⟩
      simpa using congrArg (fun xs => xs) hcall
    | deleteFailed t' k' =>
      refine ⟨(t', k'), rfl, ?_⟩
      simpa using congrArg (fun xs => xs) hcall
    | notFoundWarn t' k' =>
      exfalso
      simp [List.filterMap] at hcall
  obtain ⟨y, hy1, hy2⟩ := this
  exact ⟨l, hmem, by rw [hy1, hy2]⟩

/-- C2 (amended) witness: the destination-only site `nyc1` is deleted by the
sync run. -/
theorem c2_unconditional_delete_witness :
    ("nyc1" ∈ keysOf (dstSiteNyc EntityType.site) ∧
      "nyc1" ∉ keysOf (emptyGraph EntityType.site)) ∧
    (EntityType.site, "nyc1") ∈
      deleteCalls (run_sync Mode.sync emptyGraph dstSiteNyc okTrue).delLogs :=
  ⟨⟨by decide, by decide⟩,
    c2_unconditional_delete emptyGraph dstSiteNyc okTrue "nyc1"
      (by decide) (by decide)⟩

theorem p1Apply_calls (t : EntityType) (s : P1) (r : DiffRecord) :
    ∃ xs, (p1Apply t s r).calls = s.calls ++ xs ∧ ∀ c ∈ xs, callType c = t := by
  cases r with
  | create t' k' a =>
    simp only [p1Apply]
    by_cases hres : resolveAll s.W t a = true
    · rw [if_pos hres]
      exact ⟨[.createCall t k'], rfl, by simp [callType]⟩
    · rw [if_neg hres]
      exact ⟨[], by simp, by simp⟩
  | update t' k' ch =>
    simp only [p1Apply]
    cases hw : (s.W t).lookup k' with
    | none => exact ⟨[], by simp, by simp⟩
    | some wa =>
      show ∃ xs, ((if resolveChanged s.W t ch = true then
          ({ W := fun v => if v = t then replaceAttrs (s.W t) k' (applyChanges wa ch) else s.W v,
             calls := s.calls ++ [AdapterCall.updateCall t k'] } : P1)
        else s).calls) = s.calls ++ xs ∧ ∀ c ∈ xs, callType c = t
      by_cases hres : resolveChanged s.W t ch = true
      · rw [if_pos hres]
        exact ⟨[.updateCall t k'], rfl, by simp [callType]⟩
      · rw [if_neg hres]
        exact ⟨[], by simp, by simp⟩
  | delete t' k' => exact ⟨[], by simp [p1Apply], by simp⟩

theorem foldl_p1Apply_calls (t : EntityType) (rs : List DiffRecord) :
    ∀ s : P1, ∃ xs, (rs.foldl (p1Apply t) s).calls = s.calls ++ xs ∧
      ∀ c ∈ xs, callType c = t := by
  induction rs with
  | nil => exact fun s => ⟨[], by simp, by simp⟩
  | cons r rs ih =>
    intro s
    obtain ⟨ys, hy, hys⟩ := p1Apply_calls t s r
    obtain ⟨xs, hx, hxs⟩ := ih (p1Apply t s r)
    refine ⟨ys ++ xs, ?_, ?_⟩
    · rw [List.foldl_cons, hx, hy, List.append_assoc]
    · intro c hc
      rcases List.mem_append.mp hc with h | h
      · exact hys c h
      · exact hxs c h

theorem calls_sorted_general (F : EntityType → List DiffRecord) :
    ∀ (ts : List EntityType) (s : P1),
      List.Pairwise (fun a b => declIdx (callType a) ≤ declIdx (callType b)) s.calls →
      (∀ c ∈ s.calls, ∀ t ∈ ts, declIdx (callType c) ≤ declIdx t) →
      List.Pairwise (fun a b => declIdx a ≤ declIdx b) ts →
      List.Pairwise (fun a b => declIdx (callType a) ≤ declIdx (callType b))
        ((ts.foldl (fun s t => (F t).foldl (p1Apply t) s) s).calls) := by
  intro ts
  induction ts with
  | nil => exact fun s hs _ _ => hs
  | cons t ts ih =>
    intro s hs hle hts
    rw [List.foldl_cons]
    obtain ⟨xs, hx, hxs⟩ := foldl_p1Apply_calls t (F t) s
    refine ih ((F t).foldl (p1Apply t) s) ?_ ?_ (List.pairwise_cons.mp hts).2
    · rw [hx, List.pairwise_append]
      refine ⟨hs, ?_, ?_⟩
      · exact List.pairwise_of_forall_mem_list fun a ha b hb => by
          rw [hxs a ha, hxs b hb]
      · intro a ha b hb
        rw [hxs b hb]
        exact hle a ha t (List.mem_cons_self _ _)
    · intro c hc t' ht'
      rw [hx] at hc
      rcases List.mem_append.mp hc with h | h
      · exact hle c h t' (List.mem_cons_of_mem _ ht')
      · rw [hxs c h]
        exact (List.pairwise_cons.mp hts).1 t' ht'

theorem sync_from_calls_sorted (src dst : Graph) :
    List.Pairwise (fun a b => declIdx (callType a) ≤ declIdx (callType b))
      ((sync_from src dst).calls) := by
  unfold sync_from
  refine calls_sorted_general (fun t => cuRecordsOf t (compute src dst))
    declaredOrder ⟨dst, []⟩ ?_ ?_ ?_
  · exact List.Pairwise.nil
  · intro c hc
    cases hc
  · decide

theorem references_declIdx (U T : EntityType) (h : references U T = true) :
    declIdx T < declIdx U := by
  revert h
  revert U T
  decide

theorem references_irrefl (U : EntityType) : references U U = false := by
  revert U
  decide

/-- C4: in the creations/updates pass of a sync, the engine never issues the
create of an entity whose type references another type before the create of
the referenced type: every `createCall` of a referenced type `T` precedes
every `createCall` of a referencing type `U` in the call trace. -/
theorem c4_create_ordering (src dst : Graph) (U T : EntityType)
    (href : references U T = true) (kU kT : String) (i j : Nat)
    (hU : ((sync_from src dst).calls)[i]? = some (AdapterCall.createCall U kU))
    (hT : ((sync_from src dst).calls)[j]? = some (AdapterCall.createCall T kT)) :
    j < i := by
  have hp := sync_from_calls_sorted src dst
  rw [List.pairwise_iff_getElem] at hp
  obtain ⟨hi, hgi⟩ := List.getElem?_eq_some.mp hU
  obtain ⟨hj, hgj⟩ := List.getElem?_eq_some.mp hT
  by_contra hcon
  rcases Nat.lt_or_eq_of_le (Nat.not_lt.mp hcon) with hlt | heq
  · have hle := hp i j hi hj hlt
    rw [hgi, hgj] at hle
    simp only [callType] at hle
    have h2 := references_declIdx U T href
    omega
  · subst heq
    have hC : AdapterCall.createCall U kU = AdapterCall.createCall T kT :=
      hgi.symm.trans hgj
    cases hC
    rw [references_irrefl U] at href
    cases href

/-- C4 witness: spec scenario C — creating a manufacturer and a device type
that references it into an empty destination, the manufacturer create (index
0) precedes the device type create (index 1). -/
theorem c4_create_ordering_witness :
    (references EntityType.device_type EntityType.manufacturer = true ∧
      ((sync_from srcScenC emptyGraph).calls)[1]?
        = some (AdapterCall.createCall EntityType.device_type "s-1vcpu-1gb") ∧
      ((sync_from srcScenC emptyGraph).calls)[0]?
        = some (AdapterCall.createCall EntityType.manufacturer "DigitalOcean")) ∧
    0 < 1 :=
  ⟨⟨by decide, by decide, by decide⟩,
    c4_create_ordering srcScenC emptyGraph EntityType.device_type
      EntityType.manufacturer (by decide) "s-1vcpu-1gb" "DigitalOcean" 1 0
      (by decide) (by decide)⟩

/-- C6: when source and destination agree on the key sets of every type and
differ in exactly one attribute field `f0` of one entity `(t0, k0)`, the
computed Diff is exactly one UPDATE record for that entity carrying exactly
that field with its destination (old) and source (new) values. -/
theorem c6_single_update (G H : Graph)
    (hndG : ∀ t, (keysOf (G t)).Nodup)
    (hkeys : ∀ t k, k ∈ keysOf (G t) ↔ k ∈ keysOf (H t))
    (t0 : EntityType) (k0 f0 : String) (sa da : Attrs)
    (hsa : (G t0).lookup k0 = some sa)
    (hda : (H t0).lookup k0 = some da)
    (hf0 : f0 ∈ modelFields t0)
    (hne : attrVal sa f0 ≠ attrVal da f0)
    (hothers : ∀ t k sa2 da2 f, (G t).lookup k = some sa2 →
        (H t).lookup k = some da2 → f ∈ modelFields t →
        ¬(t = t0 ∧ k = k0 ∧ f = f0) → attrVal sa2 f = attrVal da2 f) :
    compute G H =
      [DiffRecord.update t0 k0 [(f0, attrVal da f0, attrVal sa f0)]] := by
  have hcr : ∀ t, createsFor t (G t) (H t) = [] := by
    intro t
    unfold createsFor
    refine List.filterMap_eq_nil_iff.mpr fun k hk => ?_
    have hkG : k ∈ keysOf (G t) := (mem_sortKeys _ _).mp hk
    have hkH : k ∈ keysOf (H t) := (hkeys t k).mp hkG
    rw [if_pos hkH]
  have hdl : ∀ t, deletesFor t (G t) (H t) = [] := by
    intro t
    unfold deletesFor
    refine List.filterMap_eq_nil_iff.mpr fun k hk => ?_
    have hkH : k ∈ keysOf (H t) := (mem_sortKeys _ _).mp hk
    have hkG : k ∈ keysOf (G t) := (hkeys t k).mpr hkH
    rw [if_pos hkG]
  have hch0 : ∀ t k sa2 da2, (G t).lookup k = some sa2 →
      (H t).lookup k = some da2 → ¬(t = t0 ∧ k = k0) →
      changedFields t sa2 da2 = [] := by
    intro t k sa2 da2 hG hH hnot
    unfold changedFields
    refine List.filterMap_eq_nil_iff.mpr fun f hf => ?_
    have hv := hothers t k sa2 da2 f hG hH hf fun hcon => hnot ⟨hcon.1, hcon.2.1⟩
    simp [hv]
  have hupO : ∀ t, t ≠ t0 → updatesFor t (G t) (H t) = [] := by
    intro t ht
    unfold updatesFor
    refine List.filterMap_eq_nil_iff.mpr fun k _ => ?_
    cases hG : (G t).lookup k with
    | none => rfl
    | some sa2 =>
      cases hH : (H t).lookup k with
      | none => rfl
      | some da2 =>
        have hch := hch0 t k sa2 da2 hG hH fun hcon => ht hcon.1
        simp [hch]
  have hndf : (modelFields t0).Nodup := by cases t0 <;> decide
  have hch1 : changedFields t0 sa da
      = [(f0, attrVal da f0, attrVal sa f0)] := by
    unfold changedFields
    refine filterMap_eq_single _ _ f0 _ hndf hf0 ?_ ?_
    · simp [hne]
    · intro f hf hff0
      have hv := hothers t0 k0 sa da f hsa hda hf fun hcon => hff0 hcon.2.2
      simp [hv]
  have hup0 : updatesFor t0 (G t0) (H t0)
      = [DiffRecord.update t0 k0 [(f0, attrVal da f0, attrVal sa f0)]] := by
    unfold updatesFor
    refine filterMap_eq_single _ _ k0 _ (nodup_sortKeys _ (hndG t0))
      ((mem_sortKeys _ _).mpr (lookup_mem_of_isSome _ _ _ hsa)) ?_ ?_
    · simp [hsa, hda, hch1]
    · intro k hk hkk0
      have hkG : k ∈ keysOf (G t0) := (mem_sortKeys _ _).mp hk
      have hkH : k ∈ keysOf (H t0) := (hkeys t0 k).mp hkG
      obtain ⟨sa2, hG⟩ :=
        Option.isSome_iff_exists.mp ((lookup_isSome_iff _ _).mpr hkG)
      obtain ⟨da2, hH⟩ :=
        Option.isSome_iff_exists.mp ((lookup_isSome_iff _ _).mpr hkH)
      have hch := hch0 t0 k sa2 da2 hG hH fun hcon => hkk0 hcon.2
      simp [hG, hH, hch]
  have hbO : ∀ t, t ≠ t0 → blockFor G H t = [] := by
    intro t ht
    unfold blockFor
    rw [hcr, hdl, hupO t ht]
    rfl
  have hb0 : blockFor G H t0
      = [DiffRecord.update t0 k0 [(f0, attrVal da f0, attrVal sa f0)]] := by
    unfold blockFor
    rw [hcr, hdl, hup0]
    rfl
  cases t0 with
  | manufacturer =>
    simp [compute, declaredOrder, hb0, hbO EntityType.device_type (by decide),
      hbO EntityType.device_role (by decide), hbO EntityType.site (by decide),
      hbO EntityType.device (by decide)]
  | device_type =>
    simp [compute, declaredOrder, hb0, hbO EntityType.manufacturer (by decide),
      hbO EntityType.device_role (by decide), hbO EntityType.site (by decide),
      hbO EntityType.device (by decide)]
  | device_role =>
    simp [compute, declaredOrder, hb0, hbO EntityType.manufacturer (by decide),
      hbO EntityType.device_type (by decide), hbO EntityType.site (by decide),
      hbO EntityType.device (by decide)]
  | site =>
    simp [compute, declaredOrder, hb0, hbO EntityType.manufacturer (by decide),
      hbO EntityType.device_type (by decide),
      hbO EntityType.device_role (by decide), hbO EntityType.device (by decide)]
  | device =>
    simp [compute, declaredOrder, hb0, hbO EntityType.manufacturer (by decide),
      hbO EntityType.device_type (by decide),
      hbO EntityType.device_role (by decide), hbO EntityType.site (by decide)]

/-- C6 witness: spec scenario D — source site `nyc1` with slug `nyc1`,
destination site `nyc1` with slug `nyc-1`: the diff is exactly one UPDATE of
the slug. -/
theorem c6_single_update_witness :
    attrVal [("slug", "nyc1")] "slug" ≠ attrVal [("slug", "nyc-1")] "slug" ∧
    compute srcScenD dstScenD
      = [DiffRecord.update EntityType.site "nyc1" [("slug", "nyc-1", "nyc1")]] := by
  have hoth : ∀ t k sa2 da2 f, (srcScenD t).lookup k = some sa2 →
      (dstScenD t).lookup k = some da2 → f ∈ modelFields t →
      ¬(t = EntityType.site ∧ k = "nyc1" ∧ f = "slug") →
      attrVal sa2 f = attrVal da2 f := by
    intro t k sa2 da2 f hG hH hf hnot
    cases t with
    | site =>
      by_cases hk : k = "nyc1"
      · subst hk
        exfalso
        refine hnot ⟨rfl, rfl, ?_⟩
        simpa [modelFields] using hf
      · simp [srcScenD, List.lookup_cons, beq_false_of_ne hk] at hG
    | manufacturer => simp [srcScenD] at hG
    | device_type => simp [srcScenD] at hG
    | device_role => simp [srcScenD] at hG
    | device => simp [srcScenD] at hG
  refine ⟨by decide, ?_⟩
  exact c6_single_update srcScenD dstScenD (by decide)
    (fun t k => by cases t <;> exact Iff.rfl)
    EntityType.site "nyc1" "slug" [("slug", "nyc1")] [("slug", "nyc-1")]
    (by decide) (by decide) (by decide) (by decide) hoth

end IntegrationLimbo
